import Mathlib

/-!
# Task manager (`src/app.js`): state model and checked properties

A shallow embedding of the React component `App` and its helper `TaskForm`.

* Component state (`useState` cells) is the record `App`; every handler is a
  function on that record.
* `setTimeout` callbacks are values of type `Timer` that carry the variables
  the closure captured when the handler ran; `Timer.fire` is the callback body.
* `Date.now()` and `new Date().toISOString()` are read from the environment,
  so they are explicit arguments (`now`, `createdAt`).
* The status strings `'Pending'` / `'Completed'`, the filter strings
  `'All'` / `'Pending'` / `'Completed'` and the toast types are the only
  values the program ever produces for those fields (seed data, the two
  `<option>`s of the form, the three filter buttons, the toggle handler), so
  they are enumerations whose `str` gives back the literal that is compared.
* Identifiers are JavaScript numbers that only ever hold small non-negative
  integers (seeded 1..5, then `+ 1`), modelled as `Nat`.
-/

namespace TaskManager

/-! ## Strings -/

/-- The code points removed by `String.prototype.trim`: ECMAScript
`WhiteSpace` and `LineTerminator`. -/
def isWhiteSpace (c : Char) : Bool :=
  let n := c.toNat
  n == 0x09 || n == 0x0A || n == 0x0B || n == 0x0C || n == 0x0D || n == 0x20 ||
  n == 0xA0 || n == 0x1680 || (0x2000 ≤ n && n ≤ 0x200A) || n == 0x2028 ||
  n == 0x2029 || n == 0x202F || n == 0x205F || n == 0x3000 || n == 0xFEFF

/-- Source `s.trim()`: white space dropped from both ends. -/
def trim (s : String) : String :=
  ⟨((s.data.dropWhile isWhiteSpace).reverse.dropWhile isWhiteSpace).reverse⟩

/-- Source `s.toLowerCase()` on the ASCII letters (other characters are kept). -/
def toLowerCase (s : String) : String :=
  ⟨s.data.map Char.toLower⟩

/-- Source `s.includes(q)`: `q` occurs in `s` as a contiguous run of characters. -/
def includes (s q : String) : Bool :=
  s.data.tails.any (fun t => q.data.isPrefixOf t)

/-! ## Data -/

/-- The value of a task `status` field. -/
inductive Status where
  | Pending
  | Completed
deriving DecidableEq, Repr

/-- The string literal a `Status` stands for. -/
def Status.str : Status → String
  | .Pending => "Pending"
  | .Completed => "Completed"

/-- The value of the `filterStatus` state cell. -/
inductive FilterStatus where
  | All
  | Pending
  | Completed
deriving DecidableEq, Repr

/-- The string literal a `FilterStatus` stands for. -/
def FilterStatus.str : FilterStatus → String
  | .All => "All"
  | .Pending => "Pending"
  | .Completed => "Completed"

/-- The `type` of a toast (keys of the `icons` table, lines 49-53). -/
inductive ToastType where
  | success
  | error
  | info
deriving DecidableEq, Repr

/-- A task record (shape of the entries of `initialTasks`). -/
structure Task where
  id : Nat
  title : String
  description : String
  status : Status
  createdAt : String
deriving DecidableEq, Repr

/-- The `formData` object of `TaskForm` (lines 105-109). -/
structure FormData where
  title : String
  description : String
  status : Status
deriving DecidableEq, Repr

/-- A toast record `{ id, message, type }` (line 334). -/
structure Toast where
  id : Nat
  message : String
  type : ToastType
deriving DecidableEq, Repr

/-- The `useState` cells of `App` (lines 301-310). -/
structure App where
  tasks : List Task
  filteredTasks : List Task
  filterStatus : FilterStatus
  searchQuery : String
  showForm : Bool
  editingTask : Option Task
  deleteConfirm : Option Task
  toasts : List Toast
  isLoading : Bool
  nextId : Nat
deriving DecidableEq, Repr

/-- The seed data (lines 4-40). -/
def initialTasks : List Task :=
  [ { id := 1, title := "Complete Project Documentation",
      description := "Write comprehensive README and API documentation for the task manager project",
      status := .Pending, createdAt := "2025-10-27T10:30:00Z" },
    { id := 2, title := "Review Pull Requests",
      description := "Review and merge pending PRs from team members",
      status := .Completed, createdAt := "2025-10-26T14:20:00Z" },
    { id := 3, title := "Setup CI/CD Pipeline",
      description := "Configure GitHub Actions for automated testing and deployment",
      status := .Pending, createdAt := "2025-10-25T09:15:00Z" },
    { id := 4, title := "Database Optimization",
      description := "Add indexes and optimize MongoDB queries for better performance",
      status := .Completed, createdAt := "2025-10-24T16:45:00Z" },
    { id := 5, title := "Update Dependencies",
      description := "Update all npm packages to latest stable versions",
      status := .Pending, createdAt := "2025-10-23T11:00:00Z" } ]

/-- The initial values of the state cells (lines 301-310). -/
def initialApp : App :=
  { tasks := initialTasks, filteredTasks := initialTasks, filterStatus := .All,
    searchQuery := "", showForm := false, editingTask := none, deleteConfirm := none,
    toasts := [], isLoading := false, nextId := 6 }

/-! ## The filter effect (lines 313-329) and the statistics (lines 398-400) -/

/-- The list the filter effect hands to `setFilteredTasks`. -/
def filterTasks (tasks : List Task) (filterStatus : FilterStatus) (searchQuery : String) :
    List Task :=
  let filtered := tasks
  let filtered :=
    if filterStatus.str != "All" then
      filtered.filter (fun task => task.status.str == filterStatus.str)
    else filtered
  let filtered :=
    if trim searchQuery != "" then
      filtered.filter (fun task => includes (toLowerCase task.title) (toLowerCase searchQuery))
    else filtered
  filtered

/-- One run of the filter `useEffect`. -/
def filterEffect (s : App) : App :=
  { s with filteredTasks := filterTasks s.tasks s.filterStatus s.searchQuery }

/-- The filter buttons: `setFilterStatus(v)`. -/
def setFilterStatus (v : FilterStatus) (s : App) : App :=
  { s with filterStatus := v }

/-- The search box: `setSearchQuery(e.target.value)`. -/
def setSearchQuery (v : String) (s : App) : App :=
  { s with searchQuery := v }

/-- The statistic `totalTasks` (line 398). -/
def totalTasks (s : App) : Nat :=
  s.tasks.length

/-- The statistic `completedTasks` (line 399). -/
def completedTasks (s : App) : Nat :=
  (s.tasks.filter (fun t => t.status.str == "Completed")).length

/-- The statistic `pendingTasks` (line 400). -/
def pendingTasks (s : App) : Nat :=
  (s.tasks.filter (fun t => t.status.str == "Pending")).length

/-! ## Toasts (lines 332-339) -/

/-- Source `addToast(message, type)` called when `Date.now()` reads `now`. -/
def addToast (message : String) (type : ToastType) (now : Nat) (s : App) : App :=
  { s with toasts := s.toasts ++ [{ id := now, message := message, type := type }] }

/-- Source `removeToast(id)`. -/
def removeToast (id : Nat) (s : App) : App :=
  { s with toasts := s.toasts.filter (fun toast => toast.id != id) }

/-! ## CRUD handlers (lines 342-395) -/

/-- A pending `setTimeout` callback with the variables its closure captured. -/
inductive Timer where
  | addTask (nextId : Nat) (formData : FormData)
  | updateTask (editingTask : Option Task) (formData : FormData)
deriving DecidableEq, Repr

/-- Source `handleAddTask(formData)`: the synchronous part; the callback captures the
`nextId` of the current render. -/
def handleAddTask (formData : FormData) (s : App) : App × Timer :=
  ({ s with isLoading := true }, Timer.addTask s.nextId formData)

/-- Source `handleUpdateTask(formData)`: the synchronous part; the callback captures
the `editingTask` of the current render. -/
def handleUpdateTask (formData : FormData) (s : App) : App × Timer :=
  ({ s with isLoading := true }, Timer.updateTask s.editingTask formData)

/-- The object spread `{ ...task, ...formData }` (line 366). -/
def mergeFormData (task : Task) (formData : FormData) : Task :=
  { task with title := formData.title, description := formData.description,
              status := formData.status }

/-- The body of the `setTimeout` callback, run when `new Date().toISOString()`
gives `createdAt` and `Date.now()` gives `now`.  `none` is the `TypeError` of
reading `.id` of a `null` `editingTask`, which happens as soon as the `map`
callback runs on a first task. -/
def Timer.fire : Timer → String → Nat → App → Option App
  | .addTask nextId formData, createdAt, now, s =>
    let newTask : Task :=
      { id := nextId, title := formData.title, description := formData.description,
        status := formData.status, createdAt := createdAt }
    some (addToast "Task added successfully!" .success now
      { s with tasks := newTask :: s.tasks, nextId := s.nextId + 1,
               showForm := false, isLoading := false })
  | .updateTask (some editingTask) formData, _, now, s =>
    some (addToast "Task updated successfully!" .success now
      { s with tasks := s.tasks.map (fun task =>
                 if task.id == editingTask.id then mergeFormData task formData else task),
               editingTask := none, isLoading := false })
  | .updateTask none _, _, now, s =>
    match s.tasks with
    | [] => some (addToast "Task updated successfully!" .success now
              { s with editingTask := none, isLoading := false })
    | _ :: _ => none

/-- The edit button: `onEdit={setEditingTask}`. -/
def setEditingTask (v : Option Task) (s : App) : App :=
  { s with editingTask := v }

/-- Source `handleDeleteTask(task)`. -/
def handleDeleteTask (task : Task) (s : App) : App :=
  { s with deleteConfirm := some task }

/-- Source `confirmDelete()`; `none` is the `TypeError` of `task.id` on a `null`
`deleteConfirm` (the dialog that calls it is only rendered when it is set). -/
def confirmDelete (now : Nat) (s : App) : Option App :=
  match s.deleteConfirm with
  | none => match s.tasks with
    | [] => some (addToast "Task deleted successfully!" .success now
              { s with deleteConfirm := none })
    | _ :: _ => none
  | some task =>
    some (addToast "Task deleted successfully!" .success now
      { s with tasks := s.tasks.filter (fun t => t.id != task.id), deleteConfirm := none })

/-- The cancel button of the confirmation dialog. -/
def cancelDelete (s : App) : App :=
  { s with deleteConfirm := none }

/-- Source `handleToggleStatus(task)`. -/
def handleToggleStatus (task : Task) (now : Nat) (s : App) : App :=
  let newStatus : Status :=
    if task.status.str == "Pending" then .Completed else .Pending
  addToast ("Task marked as " ++ newStatus.str ++ "!") .success now
    { s with tasks := s.tasks.map (fun t =>
               if t.id == task.id then { t with status := newStatus } else t) }

/-! ## The form (lines 104-136) -/

/-- The state cells of `TaskForm`: the draft and the `errors` object, kept as
its list of own properties. -/
structure TaskForm where
  formData : FormData
  errors : List (String × String)
deriving DecidableEq, Repr

/-- Initial state of `TaskForm` for the `task` prop (lines 105-110). -/
def TaskForm.init (task : Option Task) : TaskForm :=
  { formData :=
      { title := match task with
          | some t => if t.title != "" then t.title else ""
          | none => "",
        description := match task with
          | some t => if t.description != "" then t.description else ""
          | none => "",
        status := match task with
          | some t => t.status
          | none => .Pending },
    errors := [] }

/-- Source `validate()` (lines 120-126). -/
def validate (formData : FormData) : List (String × String) :=
  let newErrors : List (String × String) := []
  let newErrors :=
    if trim formData.title == "" then newErrors ++ [("title", "Title is required")]
    else newErrors
  newErrors

/-- Source `handleSubmit(e)` (lines 128-136) for a save handler `onSave`: the new form
state, and the result of `onSave(formData)` when it was called. -/
def handleSubmit {α : Type} (onSave : FormData → α) (form : TaskForm) : TaskForm × Option α :=
  let newErrors := validate form.formData
  if newErrors.length > 0 then
    ({ form with errors := newErrors }, none)
  else
    (form, some (onSave form.formData))

/-- The `onSave` prop (line 477): `editingTask ? handleUpdateTask : handleAddTask`. -/
def onSave (s : App) (formData : FormData) : App × Timer :=
  match s.editingTask with
  | some _ => handleUpdateTask formData s
  | none => handleAddTask formData s

/-- Submitting the form that `App` renders: the form state, the state of `App`
and the timer started, if any. -/
def submitForm (form : TaskForm) (s : App) : TaskForm × App × Option Timer :=
  match handleSubmit (onSave s) form with
  | (form1, none) => (form1, s, none)
  | (form1, some (s1, timer)) => (form1, s1, some timer)

/-! ## Completed operations -/

/-- A user operation carried through to its commit: for `add` and `update` the
timer fires right after the handler ran (the form is disabled in between), for
`delete` the dialog opened by the delete button is confirmed. -/
inductive Op where
  | add (formData : FormData) (createdAt : String) (now : Nat)
  | update (target : Task) (formData : FormData) (now : Nat)
  | delete (target : Task) (now : Nat)
  | toggle (target : Task) (now : Nat)
deriving DecidableEq, Repr

/-- Effect of one completed operation; `none` is an uncaught exception. -/
def Op.apply : Op → App → Option App
  | .add formData createdAt now, s =>
    let (s1, timer) := handleAddTask formData s
    timer.fire createdAt now s1
  | .update target formData now, s =>
    let (s1, timer) := handleUpdateTask formData (setEditingTask (some target) s)
    timer.fire "" now s1
  | .delete target now, s => confirmDelete now (handleDeleteTask target s)
  | .toggle target now, s => some (handleToggleStatus target now s)

/-- A sequence of completed operations, left to right. -/
def run : List Op → App → Option App
  | [], s => some s
  | op :: ops, s => (op.apply s).bind (run ops)

/-! ## The view projection as the specification words it -/

/-- The projection of the specification (section 4.2): status filter, then
titles that contain the case-folded trimmed query. -/
def viewProjectionSpec (tasks : List Task) (filterStatus : FilterStatus)
    (searchQuery : String) : List Task :=
  tasks.filter (fun task =>
    (filterStatus == .All || task.status.str == filterStatus.str) &&
    (trim searchQuery == "" ||
      includes (toLowerCase task.title) (toLowerCase (trim searchQuery))))

/-! ## Lemmas on lists of tasks -/

/-- The identifiers of a task list, in order. -/
def ids (tasks : List Task) : List Nat :=
  tasks.map (fun t => t.id)

/-- Invariant of the repository: identifiers are pairwise distinct and all
below the counter. -/
def IdsBelowCounter (s : App) : Prop :=
  (ids s.tasks).Nodup ∧ ∀ t ∈ s.tasks, t.id < s.nextId

theorem split_of_mem_nodup {l : List Task} {T : Task} (hnd : (ids l).Nodup) (hT : T ∈ l) :
    ∃ l₁ l₂, l = l₁ ++ T :: l₂ ∧ (∀ t ∈ l₁, t.id ≠ T.id) ∧ (∀ t ∈ l₂, t.id ≠ T.id) := by
  obtain ⟨l₁, l₂, rfl⟩ := List.append_of_mem hT
  refine ⟨l₁, l₂, rfl, ?_, ?_⟩
  · intro t ht heq
    simp only [ids, List.map_append, List.map_cons] at hnd
    have hd := (List.nodup_append.mp hnd).2.2
    exact hd (List.mem_map.mpr ⟨t, ht, heq⟩) (List.mem_cons_self _ _)
  · intro t ht heq
    simp only [ids, List.map_append, List.map_cons] at hnd
    have hc := (List.nodup_append.mp hnd).2.1
    exact (List.nodup_cons.mp hc).1 (List.mem_map.mpr ⟨t, ht, heq⟩)

theorem map_update_of_ne {l : List Task} {n : Nat} (f : Task → Task)
    (h : ∀ t ∈ l, t.id ≠ n) :
    l.map (fun t => if t.id == n then f t else t) = l := by
  induction l with
  | nil => rfl
  | cons a l ih =>
    have ha : a.id ≠ n := h a (List.mem_cons_self _ _)
    have hl : ∀ t ∈ l, t.id ≠ n := fun t ht => h t (List.mem_cons_of_mem _ ht)
    have ih2 := ih hl
    simp only [List.map_cons, beq_iff_eq, ha, if_false]
    simp only [beq_iff_eq] at ih2
    rw [ih2]

theorem filter_ne_of_ne {l : List Task} {n : Nat} (h : ∀ t ∈ l, t.id ≠ n) :
    l.filter (fun t => t.id != n) = l := by
  apply List.filter_eq_self.mpr
  intro t ht
  simp [h t ht]

theorem trim_eq_empty_iff (s : String) :
    trim s = "" ↔ ∀ c ∈ s.data, isWhiteSpace c = true := by
  have key : trim s = "" ↔
      ((s.data.dropWhile isWhiteSpace).reverse.dropWhile isWhiteSpace).reverse = [] := by
    constructor
    · intro h
      have := congrArg String.data h
      simpa [trim] using this
    · intro h
      simp [trim, h]
  rw [key, List.reverse_eq_nil_iff, List.dropWhile_eq_nil_iff]
  constructor
  · intro h
    have h2 : s.data.dropWhile isWhiteSpace = [] := by
      cases hd : s.data.dropWhile isWhiteSpace with
      | nil => rfl
      | cons a l =>
        have ha : isWhiteSpace a = true := h a (by simp [hd])
        have hn := List.head_dropWhile_not isWhiteSpace s.data (by simp [hd])
        simp [hd, ha] at hn
    exact List.dropWhile_eq_nil_iff.mp h2
  · intro h
    have h2 : s.data.dropWhile isWhiteSpace = [] := List.dropWhile_eq_nil_iff.mpr h
    simp [h2]

theorem ids_map_of_id_eq {l : List Task} (f : Task → Task) (hf : ∀ t, (f t).id = t.id) :
    ids (l.map f) = ids l := by
  simp [ids, List.map_map, Function.comp_def, hf]

theorem mem_map_id_lt {l : List Task} (f : Task → Task) (hf : ∀ t, (f t).id = t.id) {n : Nat}
    (h : ∀ t ∈ l, t.id < n) : ∀ t ∈ l.map f, t.id < n := by
  intro t ht
  obtain ⟨u, hu, rfl⟩ := List.mem_map.mp ht
  rw [hf u]
  exact h u hu

theorem run_append (ops₁ ops₂ : List Op) (s : App) :
    run (ops₁ ++ ops₂) s = (run ops₁ s).bind (run ops₂) := by
  induction ops₁ generalizing s with
  | nil => rfl
  | cons op ops ih =>
    simp only [List.cons_append, run]
    cases op.apply s with
    | none => rfl
    | some s1 => simp [ih]

theorem initialApp_idsBelowCounter : IdsBelowCounter initialApp := by
  constructor
  · decide
  · decide

theorem apply_idsBelowCounter (op : Op) (s : App) (h : IdsBelowCounter s) :
    ∃ s1, op.apply s = some s1 ∧ IdsBelowCounter s1 ∧ s.nextId ≤ s1.nextId := by
  obtain ⟨hnd, hlt⟩ := h
  cases op with
  | add formData createdAt now =>
    refine ⟨_, rfl, ⟨?_, ?_⟩, ?_⟩
    · simp only [handleAddTask, addToast, ids, List.map_cons]
      refine List.nodup_cons.mpr ⟨?_, hnd⟩
      intro hmem
      obtain ⟨t, ht, heq⟩ := List.mem_map.mp hmem
      have := hlt t ht
      omega
    · intro t ht
      simp only [handleAddTask, addToast, List.mem_cons] at ht
      rcases ht with rfl | ht
      · simp [handleAddTask, addToast]
      · have := hlt t ht
        simp only [handleAddTask, addToast]
        omega
    · simp [handleAddTask, addToast]
  | update target formData now =>
    refine ⟨_, rfl, ⟨?_, ?_⟩, ?_⟩
    · simp only [handleUpdateTask, setEditingTask, addToast]
      rw [ids_map_of_id_eq]
      · exact hnd
      · intro t
        by_cases hc : (t.id == target.id) = true <;> simp [hc, mergeFormData]
    · simp only [handleUpdateTask, setEditingTask, addToast]
      apply mem_map_id_lt _ _ hlt
      intro t
      by_cases hc : (t.id == target.id) = true <;> simp [hc, mergeFormData]
    · simp [handleUpdateTask, setEditingTask, addToast]
  | delete target now =>
    refine ⟨_, rfl, ⟨?_, ?_⟩, ?_⟩
    · simp only [handleDeleteTask, addToast, ids]
      exact hnd.sublist ((List.filter_sublist _).map _)
    · intro t ht
      simp only [handleDeleteTask, addToast] at ht
      exact hlt t (List.mem_of_mem_filter ht)
    · simp [handleDeleteTask, addToast]
  | toggle target now =>
    refine ⟨_, rfl, ⟨?_, ?_⟩, ?_⟩
    · simp only [handleToggleStatus, addToast]
      rw [ids_map_of_id_eq]
      · exact hnd
      · intro t
        by_cases hc : (t.id == target.id) = true <;> simp [hc]
    · simp only [handleToggleStatus, addToast]
      apply mem_map_id_lt _ _ hlt
      intro t
      by_cases hc : (t.id == target.id) = true <;> simp [hc]
    · simp [handleToggleStatus, addToast]

theorem run_idsBelowCounter (ops : List Op) (s : App) (h : IdsBelowCounter s) :
    ∃ s1, run ops s = some s1 ∧ IdsBelowCounter s1 ∧ s.nextId ≤ s1.nextId := by
  induction ops generalizing s with
  | nil => exact ⟨s, rfl, h, le_refl _⟩
  | cons op ops ih =>
    obtain ⟨s1, h1, hinv1, hle1⟩ := apply_idsBelowCounter op s h
    obtain ⟨s2, h2, hinv2, hle2⟩ := ih s1 hinv1
    refine ⟨s2, ?_, hinv2, le_trans hle1 hle2⟩
    simp [run, h1, h2]

/-! ## Identifiers -/

/-- C2: from the seeded state every sequence of completed operations runs to
a state; in every state reached the identifiers are pairwise distinct; and an
add that follows any further operations gives its task the value of the
counter, which is greater than every identifier present in that earlier
state (so greater than every identifier the repository ever held). -/
theorem ids_unique_never_reused (ops₁ ops₂ : List Op) (formData : FormData)
    (createdAt : String) (now : Nat) :
    ∃ s₁ s₂ s₃, run ops₁ initialApp = some s₁ ∧ run ops₂ s₁ = some s₂ ∧
      run (ops₁ ++ ops₂ ++ [.add formData createdAt now]) initialApp = some s₃ ∧
      (ids s₁.tasks).Nodup ∧ (ids s₃.tasks).Nodup ∧
      ∃ newTask, s₃.tasks = newTask :: s₂.tasks ∧ newTask.id = s₂.nextId ∧
        ∀ t ∈ s₁.tasks, t.id < newTask.id := by
  obtain ⟨s₁, h₁, hinv₁, _⟩ := run_idsBelowCounter ops₁ initialApp initialApp_idsBelowCounter
  obtain ⟨s₂, h₂, hinv₂, hle₂⟩ := run_idsBelowCounter ops₂ s₁ hinv₁
  obtain ⟨s₃, h₃, hinv₃, _⟩ := apply_idsBelowCounter (.add formData createdAt now) s₂ hinv₂
  refine ⟨s₁, s₂, s₃, h₁, h₂, ?_, hinv₁.1, hinv₃.1, ?_⟩
  · rw [List.append_assoc, run_append, h₁]
    simp only [Option.bind]
    rw [run_append, h₂]
    simp [run, h₃]
  · have hs : s₃ = (addToast "Task added successfully!" .success now
        { s₂ with tasks := { id := s₂.nextId, title := formData.title,
                             description := formData.description,
                             status := formData.status, createdAt := createdAt } :: s₂.tasks,
                  nextId := s₂.nextId + 1, showForm := false, isLoading := false }) := by
      have : (Op.add formData createdAt now).apply s₂ = some _ := rfl
      rw [h₃] at this
      simpa [handleAddTask] using this
    refine ⟨_, by rw [hs]; rfl, rfl, ?_⟩
    intro t ht
    have := hinv₁.2 t ht
    show t.id < s₂.nextId
    omega

/-! ## Adding a task -/

/-- C9: a completed add returns a state whose task list is the new task
(draft fields, identifier equal to the counter before the add, the given
creation stamp) followed by the previous list unchanged, so it is one entry
longer, and the counter is one higher. -/
theorem add_prepends_new_task (s : App) (formData : FormData) (createdAt : String) (now : Nat) :
    ∃ s1, Op.apply (.add formData createdAt now) s = some s1 ∧
      s1.tasks =
        { id := s.nextId, title := formData.title, description := formData.description,
          status := formData.status, createdAt := createdAt } :: s.tasks ∧
      s1.tasks.length = s.tasks.length + 1 ∧
      s1.tasks.tail = s.tasks ∧
      s1.nextId = s.nextId + 1 := by
  refine ⟨_, rfl, ?_, ?_, ?_, ?_⟩ <;> simp [handleAddTask, addToast]

/-! ## Statistics -/

/-- C10: the three statistics read the `tasks` cell only: setting any filter
and any search string and re-running the filter effect leaves them as they
were, and on the seeded state they are 5, 3 (ids 1, 3, 5) and 2 (ids 2, 4). -/
theorem stats_ignore_filter (filterStatus : FilterStatus) (searchQuery : String) :
    (∀ s : App,
      totalTasks (filterEffect (setSearchQuery searchQuery (setFilterStatus filterStatus s)))
        = totalTasks s ∧
      pendingTasks (filterEffect (setSearchQuery searchQuery (setFilterStatus filterStatus s)))
        = pendingTasks s ∧
      completedTasks (filterEffect (setSearchQuery searchQuery (setFilterStatus filterStatus s)))
        = completedTasks s) ∧
    totalTasks (filterEffect (setSearchQuery searchQuery (setFilterStatus filterStatus initialApp)))
      = 5 ∧
    pendingTasks (filterEffect (setSearchQuery searchQuery (setFilterStatus filterStatus initialApp)))
      = 3 ∧
    completedTasks (filterEffect (setSearchQuery searchQuery (setFilterStatus filterStatus initialApp)))
      = 2 ∧
    ids (initialApp.tasks.filter (fun t => t.status.str == "Pending")) = [1, 3, 5] ∧
    ids (initialApp.tasks.filter (fun t => t.status.str == "Completed")) = [2, 4] := by
  refine ⟨fun s => ⟨rfl, rfl, rfl⟩, ?_, ?_, ?_, ?_, ?_⟩
  · show initialTasks.length = 5
    decide
  · show (initialTasks.filter (fun t => t.status.str == "Pending")).length = 3
    decide
  · show (initialTasks.filter (fun t => t.status.str == "Completed")).length = 2
    decide
  · decide
  · decide

/-! ## Form validation -/

/-- C5: when every character of the draft title is white space (the empty
title included) `validate` returns exactly the entry title ↦ 'Title is
required', `handleSubmit` stores it and does not call the save handler, and
the state of `App` is untouched; when the trimmed title is non-empty
`validate` returns the empty mapping and `handleSubmit` calls the save handler
on the draft.  The two cases are exhaustive. -/
theorem validate_and_submit (form : TaskForm) (s : App) :
    ((∀ c ∈ form.formData.title.data, isWhiteSpace c = true) ∨ trim form.formData.title ≠ "") ∧
    ((∀ c ∈ form.formData.title.data, isWhiteSpace c = true) →
      validate form.formData = [("title", "Title is required")] ∧
      (∀ (α : Type) (save : FormData → α),
        handleSubmit save form
          = ({ form with errors := [("title", "Title is required")] }, none)) ∧
      (submitForm form s).2 = (s, none)) ∧
    (trim form.formData.title ≠ "" →
      validate form.formData = [] ∧
      (∀ (α : Type) (save : FormData → α),
        handleSubmit save form = (form, some (save form.formData))) ∧
      (submitForm form s).2 = ((onSave s form.formData).1, some (onSave s form.formData).2)) := by
  refine ⟨?_, ?_, ?_⟩
  · by_cases h : trim form.formData.title = ""
    · exact Or.inl ((trim_eq_empty_iff _).mp h)
    · exact Or.inr h
  · intro h
    have ht : trim form.formData.title = "" := (trim_eq_empty_iff _).mpr h
    have hv : validate form.formData = [("title", "Title is required")] := by
      simp [validate, ht]
    refine ⟨hv, ?_, ?_⟩
    · intro α save
      simp [handleSubmit, hv]
    · simp [submitForm, handleSubmit, hv]
  · intro h
    have hv : validate form.formData = [] := by
      simp [validate, h]
    refine ⟨hv, ?_, ?_⟩
    · intro α save
      simp [handleSubmit, hv]
    · simp [submitForm, handleSubmit, hv]

/-- C5 at two drafts: a title of three blanks is rejected, 'Buy milk' is handed
to the add handler. -/
theorem validate_and_submit_witness :
    (validate { title := "   ", description := "", status := .Pending }
        = [("title", "Title is required")] ∧
      (∀ (α : Type) (save : FormData → α),
        handleSubmit save { formData := { title := "   ", description := "", status := .Pending },
                            errors := [] }
          = ({ formData := { title := "   ", description := "", status := .Pending },
               errors := [("title", "Title is required")] }, none)) ∧
      (submitForm { formData := { title := "   ", description := "", status := .Pending },
                    errors := [] } initialApp).2 = (initialApp, none)) ∧
    (validate { title := "Buy milk", description := "", status := .Pending } = [] ∧
      (∀ (α : Type) (save : FormData → α),
        handleSubmit save { formData := { title := "Buy milk", description := "", status := .Pending },
                            errors := [] }
          = ({ formData := { title := "Buy milk", description := "", status := .Pending },
               errors := [] },
             some (save { title := "Buy milk", description := "", status := .Pending }))) ∧
      (submitForm { formData := { title := "Buy milk", description := "", status := .Pending },
                    errors := [] } initialApp).2
        = ((onSave initialApp { title := "Buy milk", description := "", status := .Pending }).1,
           some (onSave initialApp { title := "Buy milk", description := "", status := .Pending }).2)) :=
  ⟨(validate_and_submit
      { formData := { title := "   ", description := "", status := .Pending }, errors := [] }
      initialApp).2.1 (by decide),
   (validate_and_submit
      { formData := { title := "Buy milk", description := "", status := .Pending }, errors := [] }
      initialApp).2.2 (by decide)⟩

/-! ## Deleting a task -/

/-- C6: in a repository with pairwise distinct identifiers holding A and B
with different identifiers, delete requested for A, then for B, then
confirmed, returns a state whose list is the old one with the single entry B
cut out (everything before and after B kept in order), so A and every task
other than B are still there, B is not, and no confirmation is pending. -/
theorem last_delete_request_wins (s : App) (A B : Task) (now : Nat)
    (hnd : (ids s.tasks).Nodup) (hA : A ∈ s.tasks) (hB : B ∈ s.tasks) (hAB : A.id ≠ B.id) :
    ∃ s1, confirmDelete now (handleDeleteTask B (handleDeleteTask A s)) = some s1 ∧
      (∃ l₁ l₂, s.tasks = l₁ ++ B :: l₂ ∧ s1.tasks = l₁ ++ l₂) ∧
      A ∈ s1.tasks ∧ B ∉ s1.tasks ∧
      (∀ t ∈ s.tasks, t ≠ B → t ∈ s1.tasks) ∧
      s1.tasks.length + 1 = s.tasks.length ∧
      s1.deleteConfirm = none := by
  obtain ⟨l₁, l₂, hsplit, h₁, h₂⟩ := split_of_mem_nodup hnd hB
  have htasks : s.tasks.filter (fun t => t.id != B.id) = l₁ ++ l₂ := by
    rw [hsplit, List.filter_append, List.filter_cons, filter_ne_of_ne h₁, filter_ne_of_ne h₂]
    simp
  have hmem : ∀ t ∈ s.tasks, t ≠ B → t ∈ l₁ ++ l₂ := by
    intro t ht hne
    rw [hsplit] at ht
    simp only [List.mem_append, List.mem_cons] at ht ⊢
    rcases ht with h | h | h
    · exact Or.inl h
    · exact absurd h hne
    · exact Or.inr h
  have hnot : B ∉ l₁ ++ l₂ := by
    intro h
    rcases List.mem_append.mp h with h | h
    · exact h₁ B h rfl
    · exact h₂ B h rfl
  refine ⟨_, rfl, ⟨l₁, l₂, hsplit, ?_⟩, ?_, ?_, ?_, ?_, ?_⟩
  · simpa [handleDeleteTask, addToast] using htasks
  · have : A ∈ l₁ ++ l₂ := hmem A hA (fun h => hAB (by rw [h]))
    simpa [handleDeleteTask, addToast, htasks] using this
  · simpa [handleDeleteTask, addToast, htasks] using hnot
  · intro t ht hne
    have := hmem t ht hne
    simpa [handleDeleteTask, addToast, htasks] using this
  · simp only [handleDeleteTask, addToast, htasks]
    rw [hsplit]
    simp
    omega
  · simp [handleDeleteTask, addToast]

/-- C6 on the seeded state: delete requested for task 1, then for task 2, then
confirmed. -/
theorem last_delete_request_wins_witness :
    ∃ s1, confirmDelete 1000
        (handleDeleteTask (initialTasks.get ⟨1, by decide⟩)
          (handleDeleteTask (initialTasks.get ⟨0, by decide⟩) initialApp)) = some s1 ∧
      (∃ l₁ l₂, initialApp.tasks = l₁ ++ initialTasks.get ⟨1, by decide⟩ :: l₂ ∧
        s1.tasks = l₁ ++ l₂) ∧
      initialTasks.get ⟨0, by decide⟩ ∈ s1.tasks ∧ initialTasks.get ⟨1, by decide⟩ ∉ s1.tasks ∧
      (∀ t ∈ initialApp.tasks, t ≠ initialTasks.get ⟨1, by decide⟩ → t ∈ s1.tasks) ∧
      s1.tasks.length + 1 = initialApp.tasks.length ∧
      s1.deleteConfirm = none :=
  last_delete_request_wins initialApp (initialTasks.get ⟨0, by decide⟩)
    (initialTasks.get ⟨1, by decide⟩) 1000 (by decide) (by decide) (by decide) (by decide)

/-! ## Toggling and updating a task -/

theorem map_update_split {l₁ l₂ : List Task} {T : Task} (f : Task → Task)
    (h₁ : ∀ t ∈ l₁, t.id ≠ T.id) (h₂ : ∀ t ∈ l₂, t.id ≠ T.id) :
    (l₁ ++ T :: l₂).map (fun t => if t.id == T.id then f t else t) = l₁ ++ f T :: l₂ := by
  rw [List.map_append, List.map_cons, map_update_of_ne f h₁, map_update_of_ne f h₂]
  simp

/-- C7: in a repository with pairwise distinct identifiers, toggling a task T
of the list puts at the position of T a task with the other status and all
other fields of T, every other entry staying where it was; toggling that task
in turn gives back the original task list. -/
theorem toggle_twice_restores (s : App) (T : Task) (now₁ now₂ : Nat)
    (hnd : (ids s.tasks).Nodup) (hT : T ∈ s.tasks) :
    ∃ T1 : Task,
      (∃ l₁ l₂, s.tasks = l₁ ++ T :: l₂ ∧
        (handleToggleStatus T now₁ s).tasks = l₁ ++ T1 :: l₂) ∧
      T1.status ≠ T.status ∧ T1.id = T.id ∧ T1.title = T.title ∧
      T1.description = T.description ∧ T1.createdAt = T.createdAt ∧
      (handleToggleStatus T1 now₂ (handleToggleStatus T now₁ s)).tasks = s.tasks := by
  obtain ⟨l₁, l₂, hsplit, h₁, h₂⟩ := split_of_mem_nodup hnd hT
  have hfirst : (handleToggleStatus T now₁ s).tasks
      = l₁ ++ { T with status := if T.status.str == "Pending" then .Completed else .Pending }
          :: l₂ := by
    simp only [handleToggleStatus, addToast]
    rw [hsplit]
    exact map_update_split
      (fun t => { t with status := if T.status.str == "Pending" then .Completed else .Pending })
      h₁ h₂
  refine ⟨{ T with status := if T.status.str == "Pending" then .Completed else .Pending },
    ⟨l₁, l₂, hsplit, hfirst⟩, ?_, rfl, rfl, rfl, rfl, ?_⟩
  · cases hs : T.status <;> simp [Status.str]
  · simp only [handleToggleStatus, addToast] at hfirst ⊢
    rw [hfirst, hsplit]
    obtain ⟨i, ti, de, st, cr⟩ := T
    cases st
    · have e : (Status.Pending.str == "Pending") = true := by decide
      have e2 : (Status.Completed.str == "Pending") = false := by decide
      simp only [e, e2, if_true]
      rw [List.map_append, List.map_cons, map_update_of_ne _ h₁, map_update_of_ne _ h₂]
      simp [Status.str]
    · have e : (Status.Pending.str == "Pending") = true := by decide
      have e2 : (Status.Completed.str == "Pending") = false := by decide
      simp only [e, e2, if_true]
      rw [List.map_append, List.map_cons, map_update_of_ne _ h₁, map_update_of_ne _ h₂]
      simp [Status.str]

/-- C7 on the seeded state, toggling task 3 twice. -/
theorem toggle_twice_restores_witness :
    ∃ T1 : Task,
      (∃ l₁ l₂, initialApp.tasks = l₁ ++ initialTasks.get ⟨2, by decide⟩ :: l₂ ∧
        (handleToggleStatus (initialTasks.get ⟨2, by decide⟩) 1000 initialApp).tasks
          = l₁ ++ T1 :: l₂) ∧
      T1.status ≠ (initialTasks.get ⟨2, by decide⟩).status ∧
      T1.id = (initialTasks.get ⟨2, by decide⟩).id ∧
      T1.title = (initialTasks.get ⟨2, by decide⟩).title ∧
      T1.description = (initialTasks.get ⟨2, by decide⟩).description ∧
      T1.createdAt = (initialTasks.get ⟨2, by decide⟩).createdAt ∧
      (handleToggleStatus T1 2000
        (handleToggleStatus (initialTasks.get ⟨2, by decide⟩) 1000 initialApp)).tasks
        = initialApp.tasks :=
  toggle_twice_restores initialApp (initialTasks.get ⟨2, by decide⟩) 1000 2000
    (by decide) (by decide)

/-- C8: in a repository with pairwise distinct identifiers, a committed update
of a task T of the list with a draft returns a state whose list has the same
length, has at the position of T the task with the title, description and
status of the draft and the identifier and creation stamp of T, and has every
other entry unchanged at its position. -/
theorem update_in_place (s : App) (T : Task) (formData : FormData) (now : Nat)
    (hnd : (ids s.tasks).Nodup) (hT : T ∈ s.tasks) :
    ∃ s1, Op.apply (.update T formData now) s = some s1 ∧
      s1.tasks.length = s.tasks.length ∧
      ∃ l₁ l₂, s.tasks = l₁ ++ T :: l₂ ∧
        s1.tasks = l₁ ++ { id := T.id, title := formData.title,
                           description := formData.description, status := formData.status,
                           createdAt := T.createdAt } :: l₂ := by
  obtain ⟨l₁, l₂, hsplit, h₁, h₂⟩ := split_of_mem_nodup hnd hT
  refine ⟨_, rfl, ?_, l₁, l₂, hsplit, ?_⟩
  · simp [handleUpdateTask, setEditingTask, addToast]
  · simp only [handleUpdateTask, setEditingTask, addToast]
    rw [hsplit]
    exact map_update_split (fun t => mergeFormData t formData) h₁ h₂

/-- C8 on the seeded state: task 4 updated with a new draft. -/
theorem update_in_place_witness :
    ∃ s1, Op.apply (.update (initialTasks.get ⟨3, by decide⟩)
        { title := "Tune queries", description := "", status := .Pending } 1000) initialApp
        = some s1 ∧
      s1.tasks.length = initialApp.tasks.length ∧
      ∃ l₁ l₂, initialApp.tasks = l₁ ++ initialTasks.get ⟨3, by decide⟩ :: l₂ ∧
        s1.tasks = l₁ ++ { id := (initialTasks.get ⟨3, by decide⟩).id, title := "Tune queries",
                           description := "", status := .Pending,
                           createdAt := (initialTasks.get ⟨3, by decide⟩).createdAt } :: l₂ :=
  update_in_place initialApp (initialTasks.get ⟨3, by decide⟩)
    { title := "Tune queries", description := "", status := .Pending } 1000
    (by decide) (by decide)

/-! ## Stale identifiers -/

/-- C4, as stated, fails: on the seeded state a toggle for a task whose
identifier 99 is not in the repository leaves the task list unchanged but
the notification it pushes has severity success, not error. -/
theorem notFound_toast_not_error :
    ¬ (∀ (s : App) (task : Task) (now : Nat), (∀ t ∈ s.tasks, t.id ≠ task.id) →
        (handleToggleStatus task now s).tasks = s.tasks ∧
        ∃ pushed, (handleToggleStatus task now s).toasts = s.toasts ++ [pushed] ∧
          pushed.type = .error) := by
  intro h
  obtain ⟨_, pushed, hp, he⟩ := h initialApp
    { id := 99, title := "gone", description := "", status := .Pending, createdAt := "" } 1000
    (by decide)
  have hp2 : [pushed] = [({ id := 1000, message := "Task marked as Completed!",
                            type := .success } : Toast)] := by
    rw [← List.nil_append [pushed]]
    exact hp.symm.trans (by decide)
  cases hp2
  exact absurd he (by decide)

/-- C4 amended: when no task of the repository has the identifier of the
target, a committed update, a confirmed delete and a toggle each return a
state with the task list unchanged and with one notification appended,
whose severity is success. -/
theorem notFound_is_noop (s : App) (target : Task) (formData : FormData) (now : Nat)
    (hnot : ∀ t ∈ s.tasks, t.id ≠ target.id) :
    (∃ s1, Op.apply (.update target formData now) s = some s1 ∧ s1.tasks = s.tasks ∧
      s1.toasts = s.toasts ++
        [{ id := now, message := "Task updated successfully!", type := .success }]) ∧
    (∃ s1, Op.apply (.delete target now) s = some s1 ∧ s1.tasks = s.tasks ∧
      s1.toasts = s.toasts ++
        [{ id := now, message := "Task deleted successfully!", type := .success }]) ∧
    (∃ s1, Op.apply (.toggle target now) s = some s1 ∧ s1.tasks = s.tasks ∧
      ∃ message, s1.toasts = s.toasts ++
        [{ id := now, message := message, type := .success }]) := by
  refine ⟨⟨_, rfl, ?_, rfl⟩, ⟨_, rfl, ?_, rfl⟩, ⟨_, rfl, ?_, _, rfl⟩⟩
  · simp only [handleUpdateTask, setEditingTask, addToast]
    exact map_update_of_ne (fun t => mergeFormData t formData) hnot
  · simp only [handleDeleteTask, addToast]
    exact filter_ne_of_ne hnot
  · simp only [handleToggleStatus, addToast]
    exact map_update_of_ne _ hnot

/-- C4 amended, on the seeded state with the stale identifier 99. -/
theorem notFound_is_noop_witness :
    (∃ s1, Op.apply (.update
        { id := 99, title := "gone", description := "", status := .Pending, createdAt := "" }
        { title := "x", description := "", status := .Completed } 1000) initialApp = some s1 ∧
      s1.tasks = initialApp.tasks ∧
      s1.toasts = initialApp.toasts ++
        [{ id := 1000, message := "Task updated successfully!", type := .success }]) ∧
    (∃ s1, Op.apply (.delete
        { id := 99, title := "gone", description := "", status := .Pending, createdAt := "" }
        1000) initialApp = some s1 ∧
      s1.tasks = initialApp.tasks ∧
      s1.toasts = initialApp.toasts ++
        [{ id := 1000, message := "Task deleted successfully!", type := .success }]) ∧
    (∃ s1, Op.apply (.toggle
        { id := 99, title := "gone", description := "", status := .Pending, createdAt := "" }
        1000) initialApp = some s1 ∧
      s1.tasks = initialApp.tasks ∧
      ∃ message, s1.toasts = initialApp.toasts ++
        [{ id := 1000, message := message, type := .success }]) :=
  notFound_is_noop initialApp
    { id := 99, title := "gone", description := "", status := .Pending, createdAt := "" }
    { title := "x", description := "", status := .Completed } 1000 (by decide)

/-! ## Toasts -/

/-- C3, as stated, fails: a second toast pushed while the clock still reads
1000 gets the identifier 1000 of the toast already in the queue. -/
theorem toast_id_collision :
    ¬ (∀ (s : App) (message : String) (type : ToastType) (now : Nat),
        ∃ pushed, (addToast message type now s).toasts = s.toasts ++ [pushed] ∧
          ∀ t ∈ s.toasts, t.id ≠ pushed.id) := by
  intro h
  obtain ⟨pushed, hp, hne⟩ :=
    h (addToast "Task marked as Completed!" .success 1000 initialApp)
      "Task deleted successfully!" .success 1000
  have hp2 : pushed = { id := 1000, message := "Task deleted successfully!", type := .success } := by
    have := List.append_cancel_left hp
    simpa using this.symm
  exact hne { id := 1000, message := "Task marked as Completed!", type := .success }
    (by decide) (by rw [hp2])

theorem toast_filter_ne_of_ne {l : List Toast} {n : Nat} (h : ∀ t ∈ l, t.id ≠ n) :
    l.filter (fun toast => toast.id != n) = l := by
  apply List.filter_eq_self.mpr
  intro t ht
  simp [h t ht]

theorem toast_split_of_mem_nodup {l : List Toast} {x : Toast}
    (hnd : (l.map (fun t => t.id)).Nodup) (hx : x ∈ l) :
    ∃ l₁ l₂, l = l₁ ++ x :: l₂ ∧ (∀ t ∈ l₁, t.id ≠ x.id) ∧ (∀ t ∈ l₂, t.id ≠ x.id) := by
  obtain ⟨l₁, l₂, rfl⟩ := List.append_of_mem hx
  refine ⟨l₁, l₂, rfl, ?_, ?_⟩
  · intro t ht heq
    simp only [List.map_append, List.map_cons] at hnd
    have hd := (List.nodup_append.mp hnd).2.2
    exact hd (List.mem_map.mpr ⟨t, ht, heq⟩) (List.mem_cons_self _ _)
  · intro t ht heq
    simp only [List.map_append, List.map_cons] at hnd
    have hc := (List.nodup_append.mp hnd).2.1
    exact (List.nodup_cons.mp hc).1 (List.mem_map.mpr ⟨t, ht, heq⟩)

/-- C3 amended: a push made at a clock reading that is not the identifier of
any toast in the queue appends, at the end, a toast whose identifier is that
reading and differs from every identifier in the queue, and removing that
identifier gives back the queue as it was; if moreover the identifiers in
the queue were pairwise distinct they still are after the push, and removing
the identifier of any one toast cuts out exactly that toast. -/
theorem fresh_toast_removed_alone (s : App) (message : String) (type : ToastType) (now : Nat)
    (hfresh : ∀ t ∈ s.toasts, t.id ≠ now) :
    (addToast message type now s).toasts
      = s.toasts ++ [{ id := now, message := message, type := type }] ∧
    (∀ t ∈ s.toasts, t.id ≠ ({ id := now, message := message, type := type } : Toast).id) ∧
    (removeToast now (addToast message type now s)).toasts = s.toasts ∧
    ((s.toasts.map (fun t => t.id)).Nodup →
      ((addToast message type now s).toasts.map (fun t => t.id)).Nodup ∧
      ∀ x ∈ (addToast message type now s).toasts,
        ∃ l₁ l₂, (addToast message type now s).toasts = l₁ ++ x :: l₂ ∧
          (removeToast x.id (addToast message type now s)).toasts = l₁ ++ l₂) := by
  have hnd2 : (s.toasts.map (fun t => t.id)).Nodup →
      ((addToast message type now s).toasts.map (fun t => t.id)).Nodup := by
    intro hnd
    simp only [addToast, List.map_append, List.map_cons, List.map_nil]
    refine List.nodup_append.mpr ⟨hnd, List.nodup_singleton _, ?_⟩
    intro n hn hn2
    obtain ⟨t, ht, rfl⟩ := List.mem_map.mp hn
    exact hfresh t ht (List.mem_singleton.mp hn2)
  refine ⟨rfl, hfresh, ?_, fun hnd => ⟨hnd2 hnd, ?_⟩⟩
  · simp only [removeToast, addToast, List.filter_append, toast_filter_ne_of_ne hfresh]
    simp
  · intro x hx
    obtain ⟨l₁, l₂, hsplit, h₁, h₂⟩ := toast_split_of_mem_nodup (hnd2 hnd) hx
    refine ⟨l₁, l₂, hsplit, ?_⟩
    simp only [removeToast]
    rw [hsplit, List.filter_append, List.filter_cons, toast_filter_ne_of_ne h₁,
      toast_filter_ne_of_ne h₂]
    simp

/-- C3 amended, for a toast pushed at reading 1500 onto a queue holding one
toast pushed at reading 1000. -/
theorem fresh_toast_removed_alone_witness :
    (addToast "Task deleted successfully!" .success 1500
        (addToast "Task marked as Completed!" .success 1000 initialApp)).toasts
      = [{ id := 1000, message := "Task marked as Completed!", type := .success },
         { id := 1500, message := "Task deleted successfully!", type := .success }] ∧
    (removeToast 1500 (addToast "Task deleted successfully!" .success 1500
        (addToast "Task marked as Completed!" .success 1000 initialApp))).toasts
      = [{ id := 1000, message := "Task marked as Completed!", type := .success }] ∧
    ((addToast "Task deleted successfully!" .success 1500
        (addToast "Task marked as Completed!" .success 1000 initialApp)).toasts.map
      (fun t => t.id)).Nodup :=
  ⟨(fresh_toast_removed_alone (addToast "Task marked as Completed!" .success 1000 initialApp)
      "Task deleted successfully!" .success 1500 (by decide)).1,
   (fresh_toast_removed_alone (addToast "Task marked as Completed!" .success 1000 initialApp)
      "Task deleted successfully!" .success 1500 (by decide)).2.2.1,
   ((fresh_toast_removed_alone (addToast "Task marked as Completed!" .success 1000 initialApp)
      "Task deleted successfully!" .success 1500 (by decide)).2.2.2 (by decide)).1⟩

/-! ## Search -/

theorem filterTasks_eq_spec_of_trimmed (tasks : List Task) (filterStatus : FilterStatus)
    (searchQuery : String) (h : trim searchQuery = searchQuery) :
    filterTasks tasks filterStatus searchQuery
      = viewProjectionSpec tasks filterStatus searchQuery := by
  unfold filterTasks viewProjectionSpec
  rw [h]
  by_cases hq : searchQuery = ""
  · subst hq
    cases filterStatus <;> simp [FilterStatus.str] <;> rfl
  · have hb : (searchQuery == "") = false := by simpa using hq
    have e1 : (FilterStatus.Pending == FilterStatus.All) = false := by decide
    have e2 : (FilterStatus.Completed == FilterStatus.All) = false := by decide
    cases filterStatus <;>
      simp [FilterStatus.str, hq, hb, e1, e2, List.filter_filter, Bool.and_comm]

/-- C1 (code against claim): with filter All on the seeded tasks the query
"doc" gives exactly the task titled "Complete Project Documentation", and
the projection worded by the specification gives the same for " doc ", but
the filter effect gives the empty list for " doc ": the title is searched
for the query with its blanks.  For a query without surrounding white space
the filter effect and the specification agree on every task list. -/
theorem search_uses_untrimmed_query :
    filterTasks initialTasks .All "doc" = [initialTasks.get ⟨0, by decide⟩] ∧
    (initialTasks.get ⟨0, by decide⟩).title = "Complete Project Documentation" ∧
    viewProjectionSpec initialTasks .All " doc " = [initialTasks.get ⟨0, by decide⟩] ∧
    filterTasks initialTasks .All " doc " = [] ∧
    (∀ (tasks : List Task) (filterStatus : FilterStatus) (searchQuery : String),
      trim searchQuery = searchQuery →
      filterTasks tasks filterStatus searchQuery
        = viewProjectionSpec tasks filterStatus searchQuery) := by
  refine ⟨by decide, by decide, by decide, by decide, ?_⟩
  intro tasks filterStatus searchQuery h
  exact filterTasks_eq_spec_of_trimmed tasks filterStatus searchQuery h

end TaskManager
